import Mathlib

/-!
Shallow embedding of the `e-asphyx/gpio` Go library (files `gpio.go`,
`poll_srv.go`, `bcm2708/bcm2708.go`) and proofs about it.

Part 1 embeds the BCM2708 memory-mapped register driver
(`bcm2708/bcm2708.go`).  Register traffic is modelled as an explicit event
trace so that the order of register writes and delays is provable; the
register file itself is a function from word offset to 32-bit word value
(a `Nat` reduced mod 2^32 on every store, mirroring `uint32`).
-/

namespace Bcm2708

/-- Enumerations mirroring `gpio.Direction` (`DirIn`, `DirOut`). -/
inductive Direction where
  | dirIn
  | dirOut
deriving DecidableEq, Repr

/-- Enumeration mirroring `gpio.Pull` (`PullOff`, `PullDown`, `PullUp`). -/
inductive Pull where
  | pullOff
  | pullDown
  | pullUp
deriving DecidableEq, Repr

/-- Register bank word offsets, verbatim from the constant block of
`bcm2708/bcm2708.go`. -/
def fselOffset : Nat := 0

def setOffset : Nat := 7

def clrOffset : Nat := 10

def pinLevelOffset : Nat := 13

def pullUpDnOffset : Nat := 37

def pullUpDnClkOffset : Nat := 38

/-- `pullUpDnClkDelay = 2 * time.Microsecond`, in nanoseconds. -/
def pullUpDnClkDelay : Nat := 2000

/-- The driver maps one page (`unix.Getpagesize()`, 4096 bytes) and views it
as `len(mapping)/4` 32-bit words: 1024 addressable register words. -/
def regWords : Nat := 1024

/-- One observable action of the driver against the mapped registers, the
mutex or the clock, in program order. -/
inductive RegEvent where
  | lock
  | unlock
  | writeReg (offset val : Nat)
  | readReg (offset : Nat)
  | sleep (ns : Nat)
deriving DecidableEq, Repr

/-- Driver state: the register file (word offset to stored `uint32`) plus the
trace of events issued so far. -/
structure DrvState where
  reg : Nat → Nat
  trace : List RegEvent

/-- Store a word: registers are `uint32`, so the stored value is reduced
mod 2^32. -/
def writeReg (offset val : Nat) (s : DrvState) : DrvState :=
  { reg := fun i => if i = offset then val % 2 ^ 32 else s.reg i,
    trace := s.trace ++ [.writeReg offset val] }

/-- Record a read of a register word (the value read is `s.reg offset`). -/
def readRegEv (offset : Nat) (s : DrvState) : DrvState :=
  { s with trace := s.trace ++ [.readReg offset] }

def sleep (ns : Nat) (s : DrvState) : DrvState :=
  { s with trace := s.trace ++ [.sleep ns] }

def lock (s : DrvState) : DrvState :=
  { s with trace := s.trace ++ [.lock] }

def unlock (s : DrvState) : DrvState :=
  { s with trace := s.trace ++ [.unlock] }

/-- The `switch pull` encoding in `Pin.SetPullUpDown`: `PullOff` gives 0,
`PullDown` gives 1, the default branch (hit by `PullUp`) gives 2. -/
def pullVal : Pull → Nat
  | .pullOff => 0
  | .pullDown => 1
  | .pullUp => 2

/-- `Pin.SetPullUpDown` from `bcm2708/bcm2708.go`: under the driver mutex,
write the pull code to the pull control word, sleep, latch the pin bit into
the pull clock word, sleep again, then clear both words. -/
def setPullUpDown (pin : Nat) (pull : Pull) (s : DrvState) : DrvState :=
  let val := pullVal pull
  let clkOffset := pullUpDnClkOffset + pin / 32
  let s := lock s
  let s := writeReg pullUpDnOffset val s
  let s := sleep pullUpDnClkDelay s
  let s := writeReg clkOffset (1 <<< (pin % 32)) s
  let s := sleep pullUpDnClkDelay s
  let s := writeReg pullUpDnOffset 0 s
  let s := writeReg clkOffset 0 s
  unlock s

/-- `Pin.Read`: result value and error (the Go function returns
`(int, error)` and the error is the literal `nil`). -/
def pinRead (pin : Nat) (s : DrvState) : (Nat × Option Unit) × DrvState :=
  let offset := pinLevelOffset + pin / 32
  (((s.reg offset >>> (pin % 32)) &&& 1, none), readRegEv offset s)

/-- `Pin.Write`: pick the set bank for a nonzero value and the clear bank for
zero, then store the single pin bit.  Returns the (always `nil`) error. -/
def pinWrite (pin : Nat) (value : Int) (s : DrvState) : Option Unit × DrvState :=
  let offset := if value ≠ 0 then setOffset + pin / 32 else clrOffset + pin / 32
  (none, writeReg offset (1 <<< (pin % 32)) s)

/-- The word offset `Pin.Read` accesses for a given pin. -/
def pinReadOffset (pin : Nat) : Nat := pinLevelOffset + pin / 32

/-- The word offset `Pin.Write` accesses for a given pin and value. -/
def pinWriteOffset (pin : Nat) (value : Int) : Nat :=
  if value ≠ 0 then setOffset + pin / 32 else clrOffset + pin / 32

/-- The 3-bit function-select field of field index `j` (0 ≤ j < 10) inside a
function-select word. -/
def fselField (w j : Nat) : Nat := (w >>> (3 * j)) &&& 7

/-- Go `^(7 << shift)` on `uint32`: complement within 32 bits. -/
def fselMask (shift : Nat) : Nat := (2 ^ 32 - 1) ^^^ (7 <<< shift)

/-- `Pin.SetDirection`: read-modify-write of the 3-bit function-select field
under the mutex; mode 0 selects input, mode 1 output. -/
def setDirection (pin : Nat) (dir : Direction) (s : DrvState) : DrvState :=
  let offset := fselOffset + pin / 10
  let shift := (pin % 10) * 3
  let mode : Nat := if dir = .dirIn then 0 else 1
  let s := lock s
  let s := readRegEv offset s
  let s := writeReg offset ((s.reg offset &&& fselMask shift) ||| (mode <<< shift)) s
  unlock s

end Bcm2708

namespace Bcm2708

/-- A driver state with zeroed registers and an empty trace, used to
instantiate theorems at concrete inputs. -/
def s0 : DrvState := ⟨fun _ => 0, []⟩

/-- C1: for every pin and pull mode, `SetPullUpDown` emits, in order and
under the mutex: the encoded pull mode (off=0, down=1, up=2) to the pull
control word, a 2µs delay, the single bit `1 <<< (pin % 32)` to the clock
word at `pullUpDnClkOffset + pin / 32`, the same delay again, and only then
the two clearing writes; no write is omitted or reordered. -/
theorem setPullUpDown_sequence (pin : Nat) (pull : Pull) (s : DrvState) :
    (setPullUpDown pin pull s).trace = s.trace ++
      [.lock,
       .writeReg pullUpDnOffset (pullVal pull),
       .sleep pullUpDnClkDelay,
       .writeReg (pullUpDnClkOffset + pin / 32) (1 <<< (pin % 32)),
       .sleep pullUpDnClkDelay,
       .writeReg pullUpDnOffset 0,
       .writeReg (pullUpDnClkOffset + pin / 32) 0,
       .unlock] ∧
    pullVal .pullOff = 0 ∧ pullVal .pullDown = 1 ∧ pullVal .pullUp = 2 ∧
    pullUpDnClkDelay = 2000 := by
  refine ⟨?_, rfl, rfl, rfl, rfl⟩
  simp [setPullUpDown, lock, writeReg, sleep, unlock]

/-- C2: register-level `Write` appends exactly one register write, of the
single bit `1 <<< (pin % 32)`, to the set bank for a nonzero value and to
the clear bank for zero; the new events contain no register read
(no read-modify-write); and `Read` returns bit `pin % 32` of the level word
at `pinLevelOffset + pin / 32`. -/
theorem pinWrite_pinRead_spec (pin : Nat) (v : Int) (s : DrvState) :
    (pinWrite pin v s).2.trace =
        s.trace ++ [.writeReg (pinWriteOffset pin v) (1 <<< (pin % 32))] ∧
    (v ≠ 0 → pinWriteOffset pin v = setOffset + pin / 32) ∧
    (v = 0 → pinWriteOffset pin v = clrOffset + pin / 32) ∧
    (∀ off, RegEvent.readReg off ∉ (pinWrite pin v s).2.trace.drop s.trace.length) ∧
    (pinRead pin s).1.1 = (s.reg (pinLevelOffset + pin / 32) >>> (pin % 32)) &&& 1 := by
  refine ⟨?_, ?_, ?_, ?_, rfl⟩
  · simp [pinWrite, writeReg, pinWriteOffset]
  · intro hv; simp [pinWriteOffset, hv]
  · intro hv; simp [pinWriteOffset, hv]
  · intro off
    have h : (pinWrite pin v s).2.trace =
        s.trace ++ [.writeReg (pinWriteOffset pin v) (1 <<< (pin % 32))] := by
      simp [pinWrite, writeReg, pinWriteOffset]
    rw [h, List.drop_left]
    simp

/-- Witness for C2 at pin 5: both bank selections, discharged concretely. -/
theorem pinWrite_pinRead_spec_witness :
    pinWriteOffset 5 1 = setOffset + 5 / 32 ∧
    pinWriteOffset 5 0 = clrOffset + 5 / 32 :=
  ⟨(pinWrite_pinRead_spec 5 1 s0).2.1 (by decide),
   (pinWrite_pinRead_spec 5 0 s0).2.2.1 rfl⟩

/-- C10: register-level `Read` and `Write` always return a `nil` error and
validate nothing; for pin 32352 the level-word offset is 1024 and for pin
32544 the set-bank offset is 1024, both past the 1024-word mapped register
window, yet no error is possible. -/
theorem pinReadWrite_no_bounds_check :
    (∀ pin : Nat, ∀ s : DrvState, (pinRead pin s).1.2 = none) ∧
    (∀ pin : Nat, ∀ v : Int, ∀ s : DrvState, (pinWrite pin v s).1 = none) ∧
    pinReadOffset 32352 = 1024 ∧ regWords ≤ pinReadOffset 32352 ∧
    pinWriteOffset 32544 1 = 1024 ∧ regWords ≤ pinWriteOffset 32544 1 := by
  refine ⟨fun pin s => rfl, fun pin v s => rfl, by decide, by decide, ?_, ?_⟩
  · simp [pinWriteOffset, setOffset]
  · simp [pinWriteOffset, setOffset, regWords]

end Bcm2708

namespace Bcm2708

theorem testBit_seven (i : Nat) : Nat.testBit 7 i = decide (i < 3) := by
  have h := Nat.testBit_two_pow_sub_one 3 i
  norm_num at h
  exact h

theorem fselMask_testBit (sh i : Nat) :
    (fselMask sh).testBit i =
      (decide (i < 32) ^^ (decide (sh ≤ i) && decide (i - sh < 3))) := by
  rw [fselMask, Nat.testBit_xor, Nat.testBit_shiftLeft, Nat.testBit_two_pow_sub_one,
    testBit_seven]

theorem fselUpdate_testBit (w sh m i : Nat) :
    (((w &&& fselMask sh) ||| (m <<< sh)) % 2 ^ 32).testBit i =
      (decide (i < 32) &&
        ((w.testBit i && (decide (i < 32) ^^ (decide (sh ≤ i) && decide (i - sh < 3)))) ||
         (decide (sh ≤ i) && m.testBit (i - sh)))) := by
  simp only [Nat.testBit_mod_two_pow, Nat.testBit_or, Nat.testBit_and, Nat.testBit_shiftLeft,
    fselMask_testBit]

theorem fselField_update_self (w j m : Nat) (hj : j < 10) (hm : m < 8) :
    fselField (((w &&& fselMask (3 * j)) ||| (m <<< (3 * j))) % 2 ^ 32) j = m := by
  apply Nat.eq_of_testBit_eq
  intro i
  rw [fselField, Nat.testBit_and, Nat.testBit_shiftRight, testBit_seven, fselUpdate_testBit]
  by_cases hi : i < 3
  · have h32 : 3 * j + i < 32 := by omega
    have hle : 3 * j ≤ 3 * j + i := by omega
    have hsub : 3 * j + i - 3 * j = i := by omega
    simp [hi, h32, hle, hsub]
  · have hmb : m.testBit i = false :=
      Nat.testBit_eq_false_of_lt (lt_of_lt_of_le hm (by
        calc (8 : Nat) = 2 ^ 3 := by norm_num
          _ ≤ 2 ^ i := Nat.pow_le_pow_right (by norm_num) (by omega)))
    simp [hi, hmb]

theorem fselField_update_other (w j j' m : Nat) (hj' : j' < 10) (hne : j ≠ j') (hm : m < 8) :
    fselField (((w &&& fselMask (3 * j)) ||| (m <<< (3 * j))) % 2 ^ 32) j' =
      fselField w j' := by
  apply Nat.eq_of_testBit_eq
  intro i
  rw [fselField, fselField, Nat.testBit_and, Nat.testBit_and, Nat.testBit_shiftRight,
    Nat.testBit_shiftRight, testBit_seven, fselUpdate_testBit]
  by_cases hi : i < 3
  · have h32 : 3 * j' + i < 32 := by omega
    by_cases hcase : 3 * j ≤ 3 * j' + i
    · have h3 : 3 ≤ 3 * j' + i - 3 * j := by omega
      have hmb : m.testBit (3 * j' + i - 3 * j) = false :=
        Nat.testBit_eq_false_of_lt (lt_of_lt_of_le hm (by
          calc (8 : Nat) = 2 ^ 3 := by norm_num
            _ ≤ 2 ^ (3 * j' + i - 3 * j) := Nat.pow_le_pow_right (by norm_num) h3))
      simp [hi, h32, hcase, hmb, h3]
    · simp [hi, h32, hcase]
  · simp [hi]

/-- Characterization of the register file after `SetDirection`: only the
function-select word of the pin's group is rewritten. -/
theorem setDirection_reg (pin : Nat) (dir : Direction) (s : DrvState) :
    (setDirection pin dir s).reg = fun i =>
      if i = fselOffset + pin / 10 then
        ((s.reg (fselOffset + pin / 10) &&& fselMask ((pin % 10) * 3)) |||
          ((if dir = .dirIn then 0 else 1) <<< ((pin % 10) * 3))) % 2 ^ 32
      else s.reg i := by
  funext i
  simp [setDirection, lock, readRegEv, writeReg, unlock]

/-- C3: `SetDirection` sets pin N's 3-bit function-select field (bits
`3*(N % 10)` through `3*(N % 10)+2` of the word at `fselOffset + N / 10`)
to 0 for input and 1 for output, leaves the field of every other pin
sharing that word unchanged, and touches no other word. -/
theorem setDirection_field_isolation (pin : Nat) (dir : Direction) (s : DrvState) :
    fselField ((setDirection pin dir s).reg (fselOffset + pin / 10)) (pin % 10) =
      (if dir = .dirIn then 0 else 1) ∧
    (∀ m : Nat, m / 10 = pin / 10 → m % 10 ≠ pin % 10 →
      fselField ((setDirection pin dir s).reg (fselOffset + m / 10)) (m % 10) =
        fselField (s.reg (fselOffset + m / 10)) (m % 10)) ∧
    (∀ i : Nat, i ≠ fselOffset + pin / 10 → (setDirection pin dir s).reg i = s.reg i) := by
  have hreg := setDirection_reg pin dir s
  have hmode : (if dir = Direction.dirIn then 0 else 1) < 8 := by
    cases dir <;> decide
  have hj : pin % 10 < 10 := Nat.mod_lt _ (by norm_num)
  refine ⟨?_, ?_, ?_⟩
  · rw [hreg]
    simp only [if_pos rfl]
    rw [Nat.mul_comm (pin % 10) 3]
    exact fselField_update_self _ _ _ hj hmode
  · intro m hdiv hmod
    rw [hreg]
    simp only [hdiv, if_pos rfl]
    rw [Nat.mul_comm (pin % 10) 3]
    exact fselField_update_other _ _ _ _ (Nat.mod_lt _ (by norm_num)) (fun h => hmod h.symm) hmode
  · intro i hi
    rw [hreg]
    simp only [if_neg hi]

/-- Witness for C3 at pin 3, direction out, sibling pin 4 and untouched
word 5, against the zeroed driver state. -/
theorem setDirection_field_isolation_witness :
    ((4 : Nat) / 10 = 3 / 10 ∧ (4 : Nat) % 10 ≠ 3 % 10 ∧
      fselField ((setDirection 3 .dirOut s0).reg (fselOffset + 4 / 10)) (4 % 10) =
        fselField (s0.reg (fselOffset + 4 / 10)) (4 % 10)) ∧
    ((5 : Nat) ≠ fselOffset + 3 / 10 → (setDirection 3 .dirOut s0).reg 5 = s0.reg 5) :=
  ⟨⟨rfl, by decide, (setDirection_field_isolation 3 .dirOut s0).2.1 4 rfl (by decide)⟩,
   (setDirection_field_isolation 3 .dirOut s0).2.2 5⟩

end Bcm2708

/-!
Part 2 embeds the portable sysfs layer (`gpio.go`) and the reactor's
dispatch branch (`poll_srv.go`).  File traffic is again an explicit event
trace; outcomes of the individual kernel-file operations are supplied by a
`SysWorld` oracle, with I/O failures represented as `GErr.io` codes, which
are distinct from the two sentinel errors `ErrTrigger` and `ErrInvalid` of
`gpio.go`.
-/

namespace Gpio

inductive Trigger where
  | edgeNone
  | edgeRising
  | edgeFalling
  | edgeBoth
deriving DecidableEq, Repr

inductive Direction where
  | dirIn
  | dirOut
deriving DecidableEq, Repr

/-- Errors of the sysfs layer: the sentinels `ErrTrigger` ("Trigger
active") and `ErrInvalid` ("Invalid pin"), plus opaque I/O errors. -/
inductive GErr where
  | errTrigger
  | errInvalid
  | io (code : Nat)
deriving DecidableEq, Repr

/-- A Go channel of ints: buffered contents, capacity, closed flag. -/
structure ChanState where
  buf : List Nat
  cap : Nat
  closed : Bool
deriving DecidableEq, Repr

/-- `gpio.Pin`: pin index, validity of the value-file descriptor, the
optional event channel (`ch`, non-nil exactly when a trigger is armed) and
the recorded edge mode (`trigger`). -/
structure SysPin where
  idx : Nat
  fdValid : Bool
  ch : Option ChanState
  trigger : Trigger
deriving DecidableEq, Repr

/-- Observable actions against the kernel files and the reactor. -/
inductive SysEvent where
  | seekValue
  | readValue
  | writeValue (b : Nat)
  | writeDirectionFile (d : Direction)
  | writeEdgeFile (e : Trigger)
  | addPin (idx : Nat)
  | deletePin (idx : Nat)
  | drainChannel
deriving DecidableEq, Repr

/-- Oracle fixing the outcome of each kernel-file operation: `none` means
success, `some code` an I/O error surfaced as `GErr.io code`.  `readByte`
is the byte delivered by a successful read of the value file. -/
structure SysWorld where
  seekErr : Option Nat
  readErr : Option Nat
  readByte : Nat
  writeErr : Option Nat
  dirErr : Option Nat
  edgeErr : Option Nat
  addErr : Option Nat
  delErr : Option Nat
deriving DecidableEq, Repr

/-- `Pin.read` (lower-case, the internal read path): seek to the start of
the value file, read one byte, map byte `'1'` (49) to 1 and anything else
to 0.  It never consults the channel. -/
def pinReadLow (w : SysWorld) : (Nat × Option GErr) × List SysEvent :=
  match w.seekErr with
  | some e => ((0, some (.io e)), [.seekValue])
  | none =>
    match w.readErr with
    | some e => ((0, some (.io e)), [.seekValue, .readValue])
    | none => ((if w.readByte = 49 then 1 else 0, none), [.seekValue, .readValue])

/-- `Pin.Read`: guarded by the armed-channel check. -/
def sysRead (p : SysPin) (w : SysWorld) : (Nat × Option GErr) × List SysEvent :=
  if p.ch.isSome then ((0, some .errTrigger), [])
  else pinReadLow w

/-- `Pin.Write`: guarded by the armed-channel check; writes byte `'1'` (49)
for a nonzero value and `'0'` (48) for zero. -/
def sysWrite (p : SysPin) (value : Int) (w : SysWorld) : Option GErr × List SysEvent :=
  if p.ch.isSome then (some .errTrigger, [])
  else
    match w.writeErr with
    | some e => (some (.io e), [.writeValue (if value ≠ 0 then 49 else 48)])
    | none => (none, [.writeValue (if value ≠ 0 then 49 else 48)])

/-- `Pin.SetDirection`: guarded by the armed-channel check; writes the
direction file. -/
def sysSetDirection (p : SysPin) (d : Direction) (w : SysWorld) :
    Option GErr × List SysEvent :=
  if p.ch.isSome then (some .errTrigger, [])
  else
    match w.dirErr with
    | some e => (some (.io e), [.writeDirectionFile d])
    | none => (none, [.writeDirectionFile d])

/-- `Pin.setEdge`: writes the edge file, unguarded. -/
def setEdge (p : SysPin) (e : Trigger) (w : SysWorld) : Option GErr × List SysEvent :=
  match w.edgeErr with
  | some er => (some (.io er), [.writeEdgeFile e])
  | none => (none, [.writeEdgeFile e])

/-- `make(chan int, 64)`. -/
def newChan : ChanState := ⟨[], 64, false⟩

/-- `Pin.Trigger`: if already armed, return the existing handle at once;
otherwise set direction to input, write the edge file, record the edge,
allocate the capacity-64 channel, and register with the reactor via
`addPin`.  The result's first component is the returned error (`none`
means a handle was returned). -/
def sysTrigger (p : SysPin) (e : Trigger) (w : SysWorld) :
    (Option GErr × SysPin) × List SysEvent :=
  if p.ch.isSome then ((none, p), [])
  else
    match sysSetDirection p .dirIn w with
    | (some er, ev) => ((some er, p), ev)
    | (none, ev1) =>
      match setEdge p e w with
      | (some er, ev2) => ((some er, p), ev1 ++ ev2)
      | (none, ev2) =>
        let p' : SysPin := { p with trigger := e, ch := some newChan }
        match w.addErr with
        | some er => ((some (.io er), p'), ev1 ++ ev2 ++ [.addPin p.idx])
        | none => ((none, p'), ev1 ++ ev2 ++ [.addPin p.idx])

/-- `gpioTrigger.Close`: reject a nil channel or an invalid descriptor with
`ErrInvalid`; otherwise `deletePin`, drain the channel until the reactor
closes it, reset `ch` to nil, and write edge mode "none". -/
def triggerClose (p : SysPin) (w : SysWorld) : (Option GErr × SysPin) × List SysEvent :=
  if p.ch.isNone || !p.fdValid then ((some .errInvalid, p), [])
  else
    match w.delErr with
    | some er => ((some (.io er), p), [.deletePin p.idx])
    | none =>
      let p' : SysPin := { p with ch := none }
      match w.edgeErr with
      | some er =>
          ((some (.io er), p'), [.deletePin p.idx, .drainChannel, .writeEdgeFile .edgeNone])
      | none =>
          ((none, p'), [.deletePin p.idx, .drainChannel, .writeEdgeFile .edgeNone])

/-- The tracked-pin branch of `epollServer.serve`: read the value through
the internal read path, then publish into the channel only if it is not
full (`len(pin.ch) != cap(pin.ch)`); a full channel drops the value. -/
def serveDispatch (c : ChanState) (w : SysWorld) :
    (Option GErr × ChanState) × List SysEvent :=
  match pinReadLow w with
  | ((_, some e), ev) => ((some e, c), ev)
  | ((val, none), ev) =>
    if c.buf.length ≠ c.cap then ((none, { c with buf := c.buf ++ [val] }), ev)
    else ((none, c), ev)

/-- A world in which every kernel-file operation succeeds and the value
file holds byte `'1'`. -/
def w0 : SysWorld := ⟨none, none, 49, none, none, none, none, none⟩

/-- A concrete armed pin (channel allocated, edge falling). -/
def pArmed : SysPin := ⟨4, true, some newChan, .edgeFalling⟩

/-- A concrete unarmed pin. -/
def pIdle : SysPin := ⟨4, true, none, .edgeNone⟩

theorem pinReadLow_no_errTrigger (w : SysWorld) :
    (pinReadLow w).1.2 ≠ some GErr.errTrigger := by
  unfold pinReadLow
  cases w.seekErr <;> cases w.readErr <;> simp

end Gpio

namespace Gpio

theorem sysWrite_unarmed_no_errTrigger (p : SysPin) (v : Int) (w : SysWorld)
    (h : p.ch = none) : (sysWrite p v w).1 ≠ some GErr.errTrigger := by
  unfold sysWrite
  rw [h]
  cases w.writeErr <;> simp

theorem sysSetDirection_unarmed_no_errTrigger (p : SysPin) (d : Direction) (w : SysWorld)
    (h : p.ch = none) : (sysSetDirection p d w).1 ≠ some GErr.errTrigger := by
  unfold sysSetDirection
  rw [h]
  cases w.dirErr <;> simp

/-- C4: with a non-nil channel, `Read` returns `(0, ErrTrigger)`, `Write`
and `SetDirection` return `ErrTrigger`, all with an empty event trace (the
value and direction files are untouched); with a nil channel none of the
three can return `ErrTrigger`. -/
theorem direct_io_guard (p : SysPin) (w : SysWorld) (v : Int) (d : Direction) :
    (p.ch.isSome = true →
      sysRead p w = ((0, some .errTrigger), []) ∧
      sysWrite p v w = (some .errTrigger, []) ∧
      sysSetDirection p d w = (some .errTrigger, [])) ∧
    (p.ch = none →
      (sysRead p w).1.2 ≠ some GErr.errTrigger ∧
      (sysWrite p v w).1 ≠ some GErr.errTrigger ∧
      (sysSetDirection p d w).1 ≠ some GErr.errTrigger) := by
  constructor
  · intro h
    refine ⟨?_, ?_, ?_⟩ <;> simp [sysRead, sysWrite, sysSetDirection, h]
  · intro h
    have h' : p.ch.isSome = false := by rw [h]; rfl
    exact ⟨by simpa [sysRead, h'] using pinReadLow_no_errTrigger w,
      sysWrite_unarmed_no_errTrigger p v w h,
      sysSetDirection_unarmed_no_errTrigger p d w h⟩

/-- Witness for C4: the armed pin `pArmed` is rejected with `ErrTrigger`
and an empty trace; the idle pin `pIdle` never sees `ErrTrigger`. -/
theorem direct_io_guard_witness :
    (sysRead pArmed w0 = ((0, some .errTrigger), []) ∧
      sysWrite pArmed 1 w0 = (some .errTrigger, []) ∧
      sysSetDirection pArmed .dirOut w0 = (some .errTrigger, [])) ∧
    ((sysRead pIdle w0).1.2 ≠ some GErr.errTrigger ∧
      (sysWrite pIdle 1 w0).1 ≠ some GErr.errTrigger ∧
      (sysSetDirection pIdle .dirOut w0).1 ≠ some GErr.errTrigger) :=
  ⟨(direct_io_guard pArmed w0 1 .dirOut).1 (by decide),
   (direct_io_guard pIdle w0 1 .dirOut).2 rfl⟩

/-- Reduction of `Pin.Trigger` on an unarmed pin in a world where the three
involved kernel operations succeed. -/
theorem sysTrigger_arms (p : SysPin) (e : Trigger) (w : SysWorld)
    (hch : p.ch = none) (hdir : w.dirErr = none) (hedge : w.edgeErr = none)
    (hadd : w.addErr = none) :
    sysTrigger p e w =
      ((none, { p with trigger := e, ch := some newChan }),
       [.writeDirectionFile .dirIn, .writeEdgeFile e, .addPin p.idx]) := by
  have h' : p.ch.isSome = false := by rw [hch]; rfl
  simp [sysTrigger, sysSetDirection, setEdge, h', hdir, hedge, hadd]

/-- Reduction of `gpioTrigger.Close` on an armed pin with a valid
descriptor, when `deletePin` and the edge-file write succeed. -/
theorem triggerClose_disarms (p : SysPin) (w : SysWorld)
    (hch : p.ch.isSome = true) (hfd : p.fdValid = true)
    (hdel : w.delErr = none) (hedge : w.edgeErr = none) :
    triggerClose p w =
      ((none, { p with ch := none }),
       [.deletePin p.idx, .drainChannel, .writeEdgeFile .edgeNone]) := by
  have h' : p.ch.isNone = false := by
    cases hc : p.ch with
    | none => rw [hc] at hch; exact absurd hch (by simp)
    | some c => rfl
  simp [triggerClose, h', hfd, hdel, hedge]

/-- C5: arming an unarmed pin and then closing the returned handle succeeds,
resets the channel to nil (so `Read`/`Write`/`SetDirection` no longer return
`ErrTrigger`), writes edge mode "none" as its final action, and a second
`Close` on the same handle returns `ErrInvalid` with no further action. -/
theorem trigger_close_roundtrip (p : SysPin) (e : Trigger) (w : SysWorld)
    (hch : p.ch = none) (hfd : p.fdValid = true)
    (hdir : w.dirErr = none) (hedge : w.edgeErr = none)
    (hadd : w.addErr = none) (hdel : w.delErr = none) :
    (sysTrigger p e w).1.1 = none ∧
    (triggerClose (sysTrigger p e w).1.2 w).1.1 = none ∧
    ((triggerClose (sysTrigger p e w).1.2 w).1.2).ch = none ∧
    ((triggerClose (sysTrigger p e w).1.2 w).2).getLast? =
      some (.writeEdgeFile .edgeNone) ∧
    ((sysRead (triggerClose (sysTrigger p e w).1.2 w).1.2 w).1.2 ≠
        some GErr.errTrigger ∧
      (∀ v : Int, (sysWrite (triggerClose (sysTrigger p e w).1.2 w).1.2 v w).1 ≠
        some GErr.errTrigger) ∧
      (∀ d : Direction,
        (sysSetDirection (triggerClose (sysTrigger p e w).1.2 w).1.2 d w).1 ≠
          some GErr.errTrigger)) ∧
    triggerClose (triggerClose (sysTrigger p e w).1.2 w).1.2 w =
      ((some GErr.errInvalid, (triggerClose (sysTrigger p e w).1.2 w).1.2), []) := by
  have harm := sysTrigger_arms p e w hch hdir hedge hadd
  have hdis := triggerClose_disarms { p with trigger := e, ch := some newChan } w
    (by rfl) (by simpa using hfd) hdel hedge
  rw [harm]
  simp only at hdis ⊢
  rw [hdis]
  simp only
  refine ⟨by simp, by simp, by simp, by simp, ⟨?_, ?_, ?_⟩, ?_⟩
  · simpa [sysRead] using pinReadLow_no_errTrigger w
  · intro v; exact sysWrite_unarmed_no_errTrigger _ v w rfl
  · intro d; exact sysSetDirection_unarmed_no_errTrigger _ d w rfl
  · simp [triggerClose]

/-- Witness for C5 at the idle pin, edge "both", in the all-success world. -/
theorem trigger_close_roundtrip_witness :
    (sysTrigger pIdle .edgeBoth w0).1.1 = none ∧
    (triggerClose (sysTrigger pIdle .edgeBoth w0).1.2 w0).1.1 = none ∧
    ((triggerClose (sysTrigger pIdle .edgeBoth w0).1.2 w0).1.2).ch = none ∧
    triggerClose (triggerClose (sysTrigger pIdle .edgeBoth w0).1.2 w0).1.2 w0 =
      ((some GErr.errInvalid,
        (triggerClose (sysTrigger pIdle .edgeBoth w0).1.2 w0).1.2), []) := by
  have h := trigger_close_roundtrip pIdle .edgeBoth w0 rfl rfl rfl rfl rfl rfl
  exact ⟨h.1, h.2.1, h.2.2.1, h.2.2.2.2.2⟩

end Gpio

namespace Gpio

/-- Counterexample to C6: on a pin whose channel is already non-nil,
`Pin.Trigger(EdgeRising)` returns a handle at once while performing no
step at all — the event trace is empty (no direction write, no edge-file
write, no `addPin`), the channel object is untouched, and the stored edge
remains the previously armed `EdgeFalling`, not the requested
`EdgeRising`. -/
theorem sysTrigger_already_armed_counterexample :
    sysTrigger pArmed .edgeRising w0 = ((none, pArmed), []) ∧
    ((sysTrigger pArmed .edgeRising w0).1.2).trigger = Trigger.edgeFalling ∧
    ((sysTrigger pArmed .edgeRising w0).1.2).trigger ≠ Trigger.edgeRising ∧
    (sysTrigger pArmed .edgeRising w0).2 = [] := by
  refine ⟨?_, rfl, by decide, rfl⟩
  rfl

/-- C6 (amended): when the pin's channel is nil and the underlying file
operations succeed, `Pin.Trigger(edge)` sets the kernel direction to
input, writes the requested edge mode to the edge file, records that edge,
allocates the bounded capacity-64 channel and registers the pin with the
reactor via `addPin`, all before returning the handle without error; when
the channel is already non-nil, it instead returns the existing handle at
once, performing none of these steps and keeping the previously stored
edge. -/
theorem sysTrigger_spec (p : SysPin) (e : Trigger) (w : SysWorld) :
    (p.ch = none → w.dirErr = none → w.edgeErr = none → w.addErr = none →
      sysTrigger p e w =
        ((none, { p with trigger := e, ch := some newChan }),
         [.writeDirectionFile .dirIn, .writeEdgeFile e, .addPin p.idx]) ∧
      newChan.cap = 64 ∧ newChan.buf = []) ∧
    (p.ch.isSome = true → sysTrigger p e w = ((none, p), [])) := by
  constructor
  · intro hch hdir hedge hadd
    exact ⟨sysTrigger_arms p e w hch hdir hedge hadd, rfl, rfl⟩
  · intro h
    simp [sysTrigger, h]

/-- Witness for the amended C6 at the idle pin, edge "rising". -/
theorem sysTrigger_spec_witness :
    (sysTrigger pIdle .edgeRising w0 =
        ((none, { pIdle with trigger := .edgeRising, ch := some newChan }),
         [.writeDirectionFile .dirIn, .writeEdgeFile .edgeRising, .addPin pIdle.idx]) ∧
      newChan.cap = 64 ∧ newChan.buf = []) ∧
    sysTrigger pArmed .edgeRising w0 = ((none, pArmed), []) :=
  ⟨(sysTrigger_spec pIdle .edgeRising w0).1 rfl rfl rfl rfl,
   (sysTrigger_spec pArmed .edgeRising w0).2 (by decide)⟩

/-- C7: on a tracked-pin event the reactor reads through the internal
(non-edge-checked) path — it cannot produce `ErrTrigger` and its events
are exactly those of the internal read — and, when the read succeeds,
appends the value to the channel exactly when the channel length is
strictly below its capacity, dropping it otherwise; the channel is never
grown past its capacity and nothing blocks. -/
theorem serveDispatch_spec (c : ChanState) (w : SysWorld)
    (hlen : c.buf.length ≤ c.cap)
    (hseek : w.seekErr = none) (hread : w.readErr = none) :
    ((serveDispatch c w).1.1 ≠ some GErr.errTrigger) ∧
    (serveDispatch c w).2 = (pinReadLow w).2 ∧
    (serveDispatch c w).1.1 = none ∧
    ((serveDispatch c w).1.2).buf =
      (if c.buf.length < c.cap then c.buf ++ [(pinReadLow w).1.1] else c.buf) ∧
    ((serveDispatch c w).1.2).cap = c.cap := by
  have hlow : pinReadLow w =
      ((if w.readByte = 49 then 1 else 0, none), [.seekValue, .readValue]) := by
    simp [pinReadLow, hseek, hread]
  by_cases hfull : c.buf.length = c.cap
  · have hnlt : ¬ c.buf.length < c.cap := by omega
    simp [serveDispatch, hlow, hfull, hnlt]
  · have hlt : c.buf.length < c.cap := by omega
    simp [serveDispatch, hlow, hfull, hlt]

/-- Witness for C7: one dispatch against an empty capacity-64 channel
publishes the value read; one against a full capacity-1 channel drops it. -/
theorem serveDispatch_spec_witness :
    ((serveDispatch newChan w0).1.2).buf =
      (if newChan.buf.length < newChan.cap then
        newChan.buf ++ [(pinReadLow w0).1.1] else newChan.buf) ∧
    ((serveDispatch ⟨[0], 1, false⟩ w0).1.2).buf =
      (if List.length [0] < 1 then [0] ++ [(pinReadLow w0).1.1] else [0]) :=
  ⟨(serveDispatch_spec newChan w0 (by decide) rfl rfl).2.2.2.1,
   (serveDispatch_spec ⟨[0], 1, false⟩ w0 (by decide) rfl rfl).2.2.2.1⟩

end Gpio

namespace Gpio

/-- `DefaultDebounceInterval = 5 * time.Millisecond`, in nanoseconds
(`time.Duration` is a signed 64-bit nanosecond count). -/
def DefaultDebounceInterval : Int := 5000000

/-- The interval adjustment at the top of `NewDebounceWithInterval`:
`if interval < 0 { interval = DefaultDebounceInterval }`. -/
def effectiveInterval (interval : Int) : Int :=
  if interval < 0 then DefaultDebounceInterval else interval

/-- State of the debounce goroutine of `NewDebounceWithInterval`: the
stored baseline `value`, the suppressing flag `debounce`, the absolute
time at which the pending timer will fire (`none` once fired), and the
values emitted downstream so far, tagged with their emission times. -/
structure DebounceState where
  value : Nat
  debounce : Bool
  deadline : Option Nat
  out : List (Nat × Nat)
deriving DecidableEq, Repr

/-- The candidate-transition test of the goroutine:
`(trigger == EdgeRising && val == 1) || (trigger == EdgeFalling && val == 0)
|| val != value`. -/
def debounceAccept (trigger : Trigger) (value val : Nat) : Bool :=
  (trigger == .edgeRising && val == 1) || (trigger == .edgeFalling && val == 0) ||
    val != value

/-- The `<-timer.C` branch: clear the suppressing flag; the timer is spent. -/
def debounceFire (st : DebounceState) : DebounceState :=
  { st with debounce := false, deadline := none }

/-- The `val, ok := <-tr.Ch()` branch at absolute time `t`: on an accepted
candidate update the baseline, and when not suppressing also publish,
raise the flag and reset the timer to `t + interval`. -/
def debounceValue (interval : Nat) (trigger : Trigger) (t val : Nat)
    (st : DebounceState) : DebounceState :=
  if debounceAccept trigger st.value val then
    let st' := { st with value := val }
    if !st'.debounce then
      { st' with out := st'.out ++ [(t, val)], debounce := true,
                 deadline := some (t + interval) }
    else st'
  else st

/-- Deliver one upstream event `(t, val)`: a pending timer strictly earlier
than `t` fires first (the scenario below has no tie between a timer
deadline and an event time), then the value branch runs. -/
def debounceStep (interval : Nat) (trigger : Trigger) (st : DebounceState)
    (ev : Nat × Nat) : DebounceState :=
  let st' := match st.deadline with
    | some d => if d < ev.1 then debounceFire st else st
    | none => st
  debounceValue interval trigger ev.1 ev.2 st'

/-- Run the goroutine over a time-ordered list of upstream events. -/
def debounceRun (interval : Nat) (trigger : Trigger) :
    DebounceState → List (Nat × Nat) → DebounceState
  | st, [] => st
  | st, ev :: rest => debounceRun interval trigger (debounceStep interval trigger st ev) rest

/-- The goroutine's initial state for a baseline read of `v` at time 0:
`timer := time.NewTimer(interval)` arms the timer to fire at `interval`,
and the suppressing flag starts false. -/
def debounceInit (interval v : Nat) : DebounceState := ⟨v, false, some interval, []⟩

/-- C8: with interval 5, edge "both", baseline 0 and upstream values
1, 0, 1, 0 at times 0, 1, 2, 8, the filter emits exactly 1 at time 0 and
0 at time 8; the transitions at times 1 and 2 update the stored baseline
(to 0, then back to 1) but are not published and leave the timer deadline
at 5 (opened by the publication at time 0), i.e. they do not reset the
suppression timer. -/
theorem debounce_scenario :
    (debounceRun 5 .edgeBoth (debounceInit 5 0) [(0, 1), (1, 0), (2, 1), (8, 0)]).out =
      [(0, 1), (8, 0)] ∧
    debounceRun 5 .edgeBoth (debounceInit 5 0) [(0, 1)] =
      ⟨1, true, some 5, [(0, 1)]⟩ ∧
    debounceRun 5 .edgeBoth (debounceInit 5 0) [(0, 1), (1, 0)] =
      ⟨0, true, some 5, [(0, 1)]⟩ ∧
    debounceRun 5 .edgeBoth (debounceInit 5 0) [(0, 1), (1, 0), (2, 1)] =
      ⟨1, true, some 5, [(0, 1)]⟩ := by
  decide

/-- Counterexample to C9: an interval of exactly zero is NOT replaced by
the default — the guard in `NewDebounceWithInterval` is `interval < 0`,
so zero is kept as the suppression interval. -/
theorem effectiveInterval_zero_counterexample :
    effectiveInterval 0 = 0 ∧ effectiveInterval 0 ≠ DefaultDebounceInterval := by
  decide

/-- C9 (amended): only a strictly negative supplied interval is replaced
by the fixed default of 5 milliseconds; zero and positive intervals are
kept as given. -/
theorem effectiveInterval_spec (i : Int) :
    (i < 0 → effectiveInterval i = DefaultDebounceInterval) ∧
    (0 ≤ i → effectiveInterval i = i) ∧
    DefaultDebounceInterval = 5000000 := by
  refine ⟨?_, ?_, rfl⟩
  · intro h; simp [effectiveInterval, h]
  · intro h
    have h' : ¬ i < 0 := by omega
    simp [effectiveInterval, h']

/-- Witness for the amended C9 at intervals -1 and 0. -/
theorem effectiveInterval_spec_witness :
    effectiveInterval (-1) = DefaultDebounceInterval ∧ effectiveInterval 0 = 0 :=
  ⟨(effectiveInterval_spec (-1)).1 (by decide),
   (effectiveInterval_spec 0).2.1 (by decide)⟩

end Gpio
